import Mathlib

/-!
Verification development for the x402-chain-miden payment core.

This file gives a shallow embedding, in Lean 4, of the facilitator-side
payment verification and settlement logic of the `x402-chain-miden` crate
(files `src/chain/types.rs`, `src/privacy/public.rs`, `src/privacy/trusted.rs`,
`src/v2_miden_exact/types.rs`, `src/v2_miden_exact/facilitator.rs`), and proves
or refutes the specified properties of that logic.

Machine integers (`u64`, `u8`) are modelled as `Nat` with explicit `% 2 ^ 64`
where Rust wrapping semantics matter, and explicit bound checks where Rust
uses `checked_mul` / `checked_add` / `u64::from_str`.  Cryptographic
primitives that the crate consumes as opaque collaborators (STARK
verification, `ProvenTransaction` / `Note` deserialization, note-id hashing,
`AccountId::from_hex` validity checking, the P2ID script root constant) are
modelled as an explicit environment `CryptoEnv`; every theorem about the
pipeline is proved for an arbitrary environment.
-/

/-! ## Characters, hex codec (the `hex` crate), decimal digits -/

/-- Size of the `u64` value space. -/
def u64Size : Nat := 2 ^ 64

/-- The lowercase hex digit character for a value `d < 16`
(also used for decimal digits `d < 10`). -/
def hexDigitChar (d : Nat) : Char :=
  if d < 10 then Char.ofNat (48 + d) else Char.ofNat (87 + d)

/-- Value of a hex digit character; accepts `0-9`, `a-f`, `A-F`
(the `hex` crate accepts both cases). -/
def hexCharVal (c : Char) : Option Nat :=
  if 48 ≤ c.toNat ∧ c.toNat ≤ 57 then some (c.toNat - 48)
  else if 97 ≤ c.toNat ∧ c.toNat ≤ 102 then some (c.toNat - 87)
  else if 65 ≤ c.toNat ∧ c.toNat ≤ 70 then some (c.toNat - 55)
  else none

/-- `hex::decode` on a character list: requires even length and hex digits
only; yields the decoded bytes. -/
def hexDecodeList : List Char → Option (List Nat)
  | [] => some []
  | [_] => none
  | a :: b :: r =>
    match hexCharVal a, hexCharVal b, hexDecodeList r with
    | some va, some vb, some rest => some ((16 * va + vb) :: rest)
    | _, _, _ => none

/-- `hex::encode` on a byte list: two lowercase hex digits per byte. -/
def hexEncodeList : List Nat → List Char
  | [] => []
  | b :: r => hexDigitChar (b / 16) :: hexDigitChar (b % 16) :: hexEncodeList r

/-- `hex::decode` on a string. -/
def hexDecodeStr (s : String) : Option (List Nat) :=
  hexDecodeList s.data

/-- `hex::encode` on a byte list, as a string. -/
def hexEncodeStr (bs : List Nat) : String :=
  String.mk (hexEncodeList bs)

/-- Canonical lowercasing of a hex digit character (identity elsewhere):
maps each of `0-9a-fA-F` to its lowercase form. -/
def hexCharToLower (c : Char) : Char :=
  match hexCharVal c with
  | some d => hexDigitChar d
  | none => c

/-- ASCII decimal digit test, as in Rust's `u64::from_str`. -/
def isDigitChar (c : Char) : Bool :=
  48 ≤ c.toNat && c.toNat ≤ 57

/-- Numeric value of a decimal digit list read left to right. -/
def decDigitsVal (cs : List Char) : Nat :=
  cs.foldl (fun a c => a * 10 + (c.toNat - 48)) 0

/-- Rust allows exactly one leading `+` sign in unsigned integer parsing. -/
def stripPlus (cs : List Char) : List Char :=
  match cs with
  | '+' :: r => r
  | _ => cs

/-- Rust `u64::from_str`: optional leading `+`, one or more ASCII decimal
digits, value below `2 ^ 64`. -/
def parseU64Chars (cs : List Char) : Option Nat :=
  let ds := stripPlus cs
  if ds.isEmpty then none
  else if ds.all isDigitChar then
    let v := decDigitsVal ds
    if v < u64Size then some v else none
  else none

/-- Rust `u64::from_str` on a string. -/
def parseU64 (s : String) : Option Nat :=
  parseU64Chars s.data

/-- Little-endian decimal digits of `n`, with explicit fuel (any fuel
`≥ n` is exact; the recursion stops as soon as the value reaches 0). -/
def digitsRevFuel : Nat → Nat → List Nat
  | 0, _ => []
  | f + 1, n => if n = 0 then [] else n % 10 :: digitsRevFuel f (n / 10)

/-- The decimal digit characters of `n`, most significant first. -/
def natDecChars (n : Nat) : List Char :=
  if n = 0 then ['0'] else ((digitsRevFuel n n).map hexDigitChar).reverse

/-- The decimal string of `n`. -/
def natDecString (n : Nat) : String :=
  String.mk (natDecChars n)

/-! ## `MidenAccountAddress` (src/chain/types.rs) -/

/-- Expected byte length of a Miden account id (`MIDEN_ACCOUNT_ID_BYTE_LEN`). -/
def midenAccountIdByteLen : Nat := 15

/-- A Miden account id wrapper holding raw bytes (`MidenAccountAddress`). -/
structure MidenAccountAddress where
  bytes : List Nat
deriving DecidableEq, Repr

/-- Parse error for `MidenAccountAddress` (`MidenAddressParseError`). -/
inductive MidenAddressParseError where
  | invalidHex (msg : String)
  | invalidLength (expected got : Nat)
deriving DecidableEq, Repr

/-- Strip a single leading literal prefix string `0x` if present
(Rust `strip_prefix("0x").unwrap_or(s)`). -/
def strip0x (cs : List Char) : List Char :=
  match cs with
  | '0' :: 'x' :: r => r
  | _ => cs

/-- `FromStr for MidenAccountAddress`: strip `0x` if present, hex-decode,
require exactly 15 bytes. -/
def midenAddressFromStr (s : String) : Except MidenAddressParseError MidenAccountAddress :=
  match hexDecodeList (strip0x s.data) with
  | none => Except.error (MidenAddressParseError.invalidHex "Invalid hex")
  | some bs =>
    if bs.length = midenAccountIdByteLen then Except.ok (MidenAccountAddress.mk bs)
    else Except.error (MidenAddressParseError.invalidLength midenAccountIdByteLen bs.length)

/-- `Display for MidenAccountAddress`: `0x` followed by lowercase hex. -/
def displayAddress (a : MidenAccountAddress) : String :=
  "0x" ++ hexEncodeStr a.bytes

/-- A structurally valid address: 15 bytes, each below 256. -/
def validAddress (a : MidenAccountAddress) : Prop :=
  a.bytes.length = midenAccountIdByteLen ∧ ∀ b ∈ a.bytes, b < 256

/-! ## Token amounts (src/chain/types.rs, `MidenTokenDeployment::parse`) -/

/-- Token amount parse error (`MidenAmountParseError`). -/
inductive MidenAmountParseError where
  | invalidFormat (s : String)
  | tooManyDecimals (got max : Nat)
  | overflow
deriving DecidableEq, Repr

/-- Rust `str::split('.')` on a character list: splits at every dot,
keeping empty segments (so `""` gives `[""]` and `"."` gives `["",""]`). -/
def splitDot : List Char → List (List Char)
  | [] => [[]]
  | c :: r =>
    if c = '.' then [] :: splitDot r
    else
      match splitDot r with
      | [] => [[c]]
      | h :: t => (c :: h) :: t

/-- `u64::checked_mul`. -/
def checkedMul (a b : Nat) : Option Nat :=
  if a * b < u64Size then some (a * b) else none

/-- `u64::checked_add`. -/
def checkedAdd (a b : Nat) : Option Nat :=
  if a + b < u64Size then some (a + b) else none

/-- `10u64.pow d` with release-mode wrapping semantics. -/
def pow10w (d : Nat) : Nat :=
  10 ^ d % u64Size

/-- Core of `MidenTokenDeployment::parse` after the split: whole and
fractional character segments to a scaled smallest-unit amount. -/
def tokenParseParts (decimals : Nat) (v : String) (whole frac : List Char) :
    Except MidenAmountParseError Nat :=
  if decimals < frac.length then
    Except.error (MidenAmountParseError.tooManyDecimals frac.length decimals)
  else
    match parseU64Chars whole with
    | none => Except.error (MidenAmountParseError.invalidFormat v)
    | some wholeVal =>
      match if frac.isEmpty then some 0 else parseU64Chars frac with
      | none => Except.error (MidenAmountParseError.invalidFormat v)
      | some fracVal =>
        let scale := pow10w decimals
        let fracScale := pow10w (decimals - frac.length)
        match checkedMul wholeVal scale with
        | none => Except.error MidenAmountParseError.overflow
        | some w =>
          match checkedMul fracVal fracScale with
          | none => Except.error MidenAmountParseError.overflow
          | some fs =>
            match checkedAdd w fs with
            | none => Except.error MidenAmountParseError.overflow
            | some total => Except.ok total

/-- `MidenTokenDeployment::parse`: split on `.` into a whole part and an
optional fractional part, scale by `10 ^ decimals`, with checked `u64`
arithmetic.  Returns the amount in smallest units. -/
def tokenParse (decimals : Nat) (v : String) : Except MidenAmountParseError Nat :=
  match splitDot v.data with
  | [whole] => tokenParseParts decimals v whole []
  | [whole, frac] => tokenParseParts decimals v whole frac
  | _ => Except.error (MidenAmountParseError.invalidFormat v)

/-- Left-pad a character list with zeros to length `k`. -/
def padZeros (k : Nat) (cs : List Char) : List Char :=
  List.replicate (k - cs.length) '0' ++ cs

/-- Modelled from the spec: `to_decimal_string(n, d)`, the decimal rendering
of `n` smallest units of a token with `d` decimals — the whole part
`n / 10 ^ d`, then (when `d > 0`) a dot and the fractional part
`n % 10 ^ d` left-padded with zeros to exactly `d` digits.  The function
itself is not part of the crate; the spec's round-trip property quantifies
over its outputs. -/
def toDecimalString (n d : Nat) : String :=
  if d = 0 then natDecString n
  else String.mk (natDecChars (n / 10 ^ d) ++ '.' :: padZeros d (natDecChars (n % 10 ^ d)))

/-! ## Wire data model (src/v2_miden_exact/types.rs and the x402-types
wire structs as instantiated by this crate) -/

/-- CAIP-2 chain id (`x402_types::chain::ChainId`): a namespace and a
reference, displayed `namespace:reference`. -/
structure ChainId where
  ns : String
  reference : String
deriving DecidableEq, Repr

/-- Display form of a chain id. -/
def chainIdToString (c : ChainId) : String :=
  c.ns ++ ":" ++ c.reference

/-- The `"exact"` scheme marker (`ExactScheme`); it has a single value and
always displays as `exact`. -/
structure ExactScheme where
deriving DecidableEq, Repr

/-- `Display for ExactScheme`. -/
def schemeToString (_ : ExactScheme) : String := "exact"

/-- Privacy mode (`PrivacyMode`, src/privacy/mod.rs). -/
inductive PrivacyMode where
  | publicMode
  | trustedFacilitator
deriving DecidableEq, Repr

/-- Payment requirements as instantiated by this crate
(`v2::PaymentRequirements<ExactScheme, String, MidenAccountAddress, _>`). -/
structure PaymentRequirements where
  scheme : ExactScheme
  network : ChainId
  payTo : MidenAccountAddress
  asset : MidenAccountAddress
  amount : String
  maxTimeoutSeconds : Nat
deriving DecidableEq, Repr

/-- The Miden-specific payment payload (`MidenExactPayload`).  The Rust
field `from` is called `fromAddress` here (`from` is reserved in Lean). -/
structure MidenExactPayload where
  fromAddress : MidenAccountAddress
  provenTransaction : String
  transactionId : String
  transactionInputs : String
  privacyMode : PrivacyMode
  noteData : Option String
deriving DecidableEq, Repr

/-- The client-to-facilitator payment envelope (`v2::PaymentPayload`). -/
structure PaymentPayload where
  accepted : PaymentRequirements
  payload : MidenExactPayload
deriving DecidableEq, Repr

/-- A facilitator verify/settle request body (`v2::VerifyRequest`;
`SettleRequest` is the same shape). -/
structure VerifyRequest where
  paymentPayload : PaymentPayload
  paymentRequirements : PaymentRequirements
deriving DecidableEq, Repr

/-- Error taxonomy of the scheme (`MidenExactError`).  The declaration in
src/v2_miden_exact/types.rs omits the `SchemeMismatch` and `AssetMismatch`
variants even though src/v2_miden_exact/facilitator.rs constructs and its
tests match on them; both are included here as used. -/
inductive MidenExactError where
  | invalidProof (msg : String)
  | paymentNotFound (msg : String)
  | chainIdMismatch (expected got : String)
  | recipientMismatch (expected got : String)
  | insufficientPayment (required got : String)
  | transactionExpired (blockNumber : Nat)
  | deserializationError (msg : String)
  | acceptedRequirementsMismatch
  | noteBindingFailed (msg : String)
  | providerError (msg : String)
  | schemeMismatch (expected got : String)
  | assetMismatch (expected got : String)
deriving DecidableEq, Repr

/-! ## Proven transactions and notes (opaque miden-protocol data, shaped
as consumed by src/privacy/public.rs and src/privacy/trusted.rs) -/

/-- A miden-protocol `AccountId`: two field elements
(`AccountId::new_unchecked([prefix_felt, suffix_felt])`). -/
structure AccountId where
  feltHi : Nat
  feltLo : Nat
deriving DecidableEq, Repr

/-- An asset in a note's vault; `iter_fungible` visits only the fungible
variant, which carries an issuing faucet account id and a `u64` amount. -/
inductive Asset where
  | fungible (faucetId : AccountId) (amount : Nat)
  | nonFungible (data : Nat)
deriving DecidableEq, Repr

/-- A full miden-protocol `Note`, projected to the fields the verifier
reads: recipient script root, recipient input field elements, and assets. -/
structure Note where
  scriptRoot : Nat
  inputValues : List Nat
  assets : List Asset
deriving DecidableEq, Repr

/-- An output note of a proven transaction (`OutputNote`): the full
on-chain-visible variant, or a reduced variant carrying only the note id. -/
inductive OutputNote where
  | full (note : Note)
  | partialNote (noteId : Nat)
  | header (noteId : Nat)
deriving DecidableEq, Repr

/-- A miden-protocol `ProvenTransaction`, projected to the fields the
verifier reads: executing account id and output notes.  The STARK proof
itself stays opaque (checked through `CryptoEnv.starkVerify`). -/
structure ProvenTransaction where
  accountId : AccountId
  outputNotes : List OutputNote
deriving DecidableEq, Repr

/-- Environment of opaque cryptographic primitives consumed from
miden-protocol / miden-tx / miden-standards: the P2ID script root constant,
note-id hashing, byte-level deserializers, the level-96 STARK verifier, and
`AccountId` hex conversion.  All pipeline theorems hold for every
environment. -/
structure CryptoEnv where
  p2idScriptRoot : Nat
  noteId : Note → Nat
  deserializeProvenTx : List Nat → Option ProvenTransaction
  deserializeNote : List Nat → Option Note
  starkVerify : ProvenTransaction → Bool
  fromHexAccountId : String → Option AccountId
  accountIdToHex : AccountId → String

/-- Note id of an output note (`OutputNote::id`): recomputed for the full
variant, stored for the reduced variants. -/
def outputNoteId (env : CryptoEnv) : OutputNote → Nat
  | OutputNote.full n => env.noteId n
  | OutputNote.partialNote nid => nid
  | OutputNote.header nid => nid

/-- `MidenAccountAddress::to_account_id`: re-parse the display hex via
`AccountId::from_hex` (which may reject invalid ids). -/
def toAccountId (env : CryptoEnv) (a : MidenAccountAddress) : Option AccountId :=
  env.fromHexAccountId (displayAddress a)

/-- `MidenAccountAddress::from_account_id`: render the id to hex and parse;
the Rust code `expect`s success, so the model returns an empty address on
the impossible failure path. -/
def fromAccountId (env : CryptoEnv) (id : AccountId) : MidenAccountAddress :=
  match midenAddressFromStr (env.accountIdToHex id) with
  | Except.ok a => a
  | Except.error _ => MidenAccountAddress.mk []

/-- Display form of an `AccountId` used in mismatch messages. -/
def accountIdToString (id : AccountId) : String :=
  natDecString id.feltHi ++ ":" ++ natDecString id.feltLo

/-! ## P2ID note checks (src/privacy/public.rs, src/privacy/trusted.rs) -/

/-- The P2ID target recovered from note inputs: word order
`[inputs[1], inputs[0]]` (suffix then prefix in storage order). -/
def p2idTarget (n : Note) : AccountId :=
  AccountId.mk (n.inputValues.getD 1 0) (n.inputValues.getD 0 0)

/-- One fungible-asset check of the verifier loops: the faucet equals the
required faucet and the amount is at least the required amount. -/
def assetPays (requiredFaucet : AccountId) (requiredAmount : Nat) : Asset → Bool
  | Asset.fungible faucetId amount =>
    decide (faucetId = requiredFaucet) && decide (requiredAmount ≤ amount)
  | Asset.nonFungible _ => false

/-- Whether one output note satisfies the public-mode P2ID payment check:
the note is the full variant, its script root is the P2ID root, it has at
least two input field elements, its recovered target is the required
recipient, and some fungible asset pays the required faucet and amount. -/
def publicNoteMatches (env : CryptoEnv) (requiredRecipient requiredFaucet : AccountId)
    (requiredAmount : Nat) : OutputNote → Bool
  | OutputNote.full n =>
    decide (n.scriptRoot = env.p2idScriptRoot) &&
    decide (2 ≤ n.inputValues.length) &&
    decide (p2idTarget n = requiredRecipient) &&
    n.assets.any (assetPays requiredFaucet requiredAmount)
  | _ => false

/-- `verify_public_note` (src/privacy/public.rs): scan the output notes for
a full P2ID note paying the required recipient; `PaymentNotFound` if none. -/
def verifyPublicNote (env : CryptoEnv) (provenTx : ProvenTransaction)
    (requiredRecipient requiredFaucet : AccountId) (requiredAmount : Nat) :
    Except MidenExactError Unit :=
  if provenTx.outputNotes.any (publicNoteMatches env requiredRecipient requiredFaucet requiredAmount)
  then Except.ok ()
  else Except.error (MidenExactError.paymentNotFound
    "No P2ID output note found matching the required recipient, faucet, and amount")

/-- `verify_trusted_facilitator_note` (src/privacy/trusted.rs): decode and
deserialize the off-chain note, require its note id to match some output
note of the proven transaction, then apply the P2ID script-root, target,
faucet and amount checks to the off-chain note. -/
def verifyTrustedFacilitatorNote (env : CryptoEnv) (provenTx : ProvenTransaction)
    (noteDataHex : String) (requiredRecipient requiredFaucet : AccountId)
    (requiredAmount : Nat) : Except MidenExactError Unit :=
  match hexDecodeStr noteDataHex with
  | none => Except.error (MidenExactError.noteBindingFailed "Invalid hex in note_data")
  | some noteBytes =>
    match env.deserializeNote noteBytes with
    | none => Except.error (MidenExactError.noteBindingFailed "Failed to deserialize Note")
    | some note =>
      if provenTx.outputNotes.any (fun o => decide (outputNoteId env o = env.noteId note)) then
        if note.scriptRoot = env.p2idScriptRoot then
          if 2 ≤ note.inputValues.length then
            if p2idTarget note = requiredRecipient then
              if note.assets.any (assetPays requiredFaucet requiredAmount) then
                Except.ok ()
              else Except.error (MidenExactError.paymentNotFound
                "Off-chain note does not contain the required faucet and amount")
            else Except.error (MidenExactError.recipientMismatch
              (accountIdToString requiredRecipient) (accountIdToString (p2idTarget note)))
          else Except.error (MidenExactError.noteBindingFailed
            "P2ID note has insufficient inputs")
        else Except.error (MidenExactError.noteBindingFailed
          "Note is not a P2ID note (script root mismatch)")
      else Except.error (MidenExactError.noteBindingFailed
        "Note ID does not match any output note in the proven transaction")

/-! ## Facilitator pipeline (src/v2_miden_exact/facilitator.rs) -/

/-- `check_requirements_match`: field-by-field comparison of the accepted
requirements echoed in the payload against the provided requirements, then
numeric (`u64`) comparison of the amounts. -/
def checkRequirementsMatch (payload : PaymentPayload)
    (requirements : PaymentRequirements) : Except MidenExactError Unit :=
  let accepted := payload.accepted
  if schemeToString accepted.scheme ≠ schemeToString requirements.scheme then
    Except.error (MidenExactError.schemeMismatch
      (schemeToString requirements.scheme) (schemeToString accepted.scheme))
  else if accepted.network ≠ requirements.network then
    Except.error (MidenExactError.chainIdMismatch
      (chainIdToString requirements.network) (chainIdToString accepted.network))
  else if accepted.payTo ≠ requirements.payTo then
    Except.error (MidenExactError.recipientMismatch
      (displayAddress requirements.payTo) (displayAddress accepted.payTo))
  else if accepted.asset ≠ requirements.asset then
    Except.error (MidenExactError.assetMismatch
      (displayAddress requirements.asset) (displayAddress accepted.asset))
  else
    match parseU64 requirements.amount with
    | none => Except.error (MidenExactError.deserializationError "Invalid required amount")
    | some requiredAmount =>
      match parseU64 accepted.amount with
      | none => Except.error (MidenExactError.deserializationError "Invalid accepted amount")
      | some acceptedAmount =>
        if acceptedAmount < requiredAmount then
          Except.error (MidenExactError.insufficientPayment requirements.amount accepted.amount)
        else Except.ok ()

/-- `decode_payload_bytes`: hex-decode the proven transaction and the
transaction inputs. -/
def decodePayloadBytes (mp : MidenExactPayload) :
    Except MidenExactError (List Nat × List Nat) :=
  match hexDecodeStr mp.provenTransaction with
  | none => Except.error (MidenExactError.deserializationError "Invalid hex in proven_transaction")
  | some provenTxBytes =>
    match hexDecodeStr mp.transactionInputs with
    | none => Except.error (MidenExactError.deserializationError "Invalid hex in transaction_inputs")
    | some txInputsBytes => Except.ok (provenTxBytes, txInputsBytes)

/-- A verification verdict (`v2::VerifyResponse::valid(payer)`); failure
travels through `Except`. -/
inductive VerifyResponse where
  | valid (payer : String)
deriving DecidableEq, Repr

/-- `verify_miden_payment` with the `miden-native` feature: requirements
match, hex decode, `ProvenTransaction` deserialization, STARK verification,
parsing of the required recipient / faucet / amount, privacy-mode
dispatched note inspection, then payer recovery from the proven
transaction's account id. -/
def verifyMidenPayment (env : CryptoEnv) (request : VerifyRequest) :
    Except MidenExactError VerifyResponse :=
  let payload := request.paymentPayload
  let requirements := request.paymentRequirements
  match checkRequirementsMatch payload requirements with
  | Except.error e => Except.error e
  | Except.ok _ =>
    let mp := payload.payload
    match decodePayloadBytes mp with
    | Except.error e => Except.error e
    | Except.ok (provenTxBytes, _txInputsBytes) =>
      match env.deserializeProvenTx provenTxBytes with
      | none => Except.error (MidenExactError.deserializationError
          "Failed to deserialize ProvenTransaction")
      | some provenTx =>
        if env.starkVerify provenTx then
          match toAccountId env requirements.payTo with
          | none => Except.error (MidenExactError.deserializationError
              "Invalid pay_to account ID")
          | some requiredRecipient =>
            match toAccountId env requirements.asset with
            | none => Except.error (MidenExactError.deserializationError
                "Invalid asset/faucet account ID")
            | some requiredFaucet =>
              match parseU64 requirements.amount with
              | none => Except.error (MidenExactError.deserializationError "Invalid amount")
              | some requiredAmount =>
                match
                  (match mp.privacyMode with
                   | PrivacyMode.publicMode =>
                     verifyPublicNote env provenTx requiredRecipient requiredFaucet requiredAmount
                   | PrivacyMode.trustedFacilitator =>
                     match mp.noteData with
                     | none => Except.error (MidenExactError.deserializationError
                         "note_data is required for trusted_facilitator privacy mode")
                     | some noteDataHex =>
                       verifyTrustedFacilitatorNote env provenTx noteDataHex
                         requiredRecipient requiredFaucet requiredAmount)
                with
                | Except.error e => Except.error e
                | Except.ok _ => Except.ok (VerifyResponse.valid
                    (displayAddress (fromAccountId env provenTx.accountId)))
        else Except.error (MidenExactError.invalidProof "STARK proof verification failed")

/-- `verify_miden_payment` without the `miden-native` feature (the stub):
still checks the requirements match first, then unconditionally fails with
`InvalidProof` because STARK verification is unavailable. -/
def verifyMidenPaymentStub (request : VerifyRequest) :
    Except MidenExactError VerifyResponse :=
  match checkRequirementsMatch request.paymentPayload request.paymentRequirements with
  | Except.error e => Except.error e
  | Except.ok _ => Except.error (MidenExactError.invalidProof
      "STARK proof verification unavailable: miden-native feature not enabled")

/-- The rollup provider interface used by settlement
(`MidenChainProvider::submit_proven_transaction` and `chain_id`). -/
structure Provider where
  submit : List Nat → List Nat → Except String String
  chainId : ChainId

/-- A settlement outcome (`v2::SettleResponse::Success`); failure travels
through `Except`. -/
inductive SettleResponse where
  | success (payer transaction network : String)
deriving DecidableEq, Repr

/-- `settle_miden_payment`: re-run the full verifier, re-decode the payload
bytes, submit to the provider, and build the success response from the
payload's `from` address, the provider-returned transaction id, and the
provider's chain id.  The second component of the result records the
submit calls actually issued to the provider. -/
def settleMidenPayment (env : CryptoEnv) (provider : Provider)
    (request : VerifyRequest) :
    Except MidenExactError SettleResponse × List (List Nat × List Nat) :=
  match verifyMidenPayment env request with
  | Except.error e => (Except.error e, [])
  | Except.ok _ =>
    let mp := request.paymentPayload.payload
    match decodePayloadBytes mp with
    | Except.error e => (Except.error e, [])
    | Except.ok (provenTxBytes, txInputsBytes) =>
      match provider.submit provenTxBytes txInputsBytes with
      | Except.error e =>
        (Except.error (MidenExactError.providerError e), [(provenTxBytes, txInputsBytes)])
      | Except.ok txId =>
        (Except.ok (SettleResponse.success (displayAddress mp.fromAddress) txId
            (chainIdToString provider.chainId)),
          [(provenTxBytes, txInputsBytes)])

/-- The request with the payload's `noteData` field replaced. -/
def withNoteData (r : VerifyRequest) (nd : Option String) : VerifyRequest :=
  { r with paymentPayload :=
    { r.paymentPayload with payload :=
      { r.paymentPayload.payload with noteData := nd } } }

deriving instance DecidableEq for Except

/-! ## Concrete fixtures used to instantiate the pipeline theorems -/

/-- Fixture address `0xaabbccddeeff00112233aabbccddee` (the spec's
`REQ_PAY_TO`). -/
def addrA : MidenAccountAddress :=
  MidenAccountAddress.mk [0xaa, 0xbb, 0xcc, 0xdd, 0xee, 0xff, 0x00, 0x11,
    0x22, 0x33, 0xaa, 0xbb, 0xcc, 0xdd, 0xee]

/-- Fixture faucet address `0x37d5977a8e16d8205a360820f0230f` (the spec's
`REQ_ASSET`). -/
def addrB : MidenAccountAddress :=
  MidenAccountAddress.mk [0x37, 0xd5, 0x97, 0x7a, 0x8e, 0x16, 0xd8, 0x20,
    0x5a, 0x36, 0x08, 0x20, 0xf0, 0x23, 0x0f]

/-- Fixture sender address `0x0b50cc0489f8f1101e946691aa89ca`. -/
def addrFrom : MidenAccountAddress :=
  MidenAccountAddress.mk [0x0b, 0x50, 0xcc, 0x04, 0x89, 0xf8, 0xf1, 0x10,
    0x1e, 0x94, 0x66, 0x91, 0xaa, 0x89, 0xca]

/-- Fixture recipient account id. -/
def recId : AccountId := AccountId.mk 1 2

/-- Fixture faucet account id. -/
def fauId : AccountId := AccountId.mk 3 4

/-- Fixture payer account id. -/
def payerId : AccountId := AccountId.mk 5 6

/-- Fixture P2ID note paying 1000000 of `fauId` to `recId`
(inputs stored suffix-first, so the target recovers as `⟨1, 2⟩`). -/
def goodNote : Note :=
  Note.mk 7 [2, 1] [Asset.fungible fauId 1000000]

/-- Fixture proven transaction executed by `payerId` with one full output
note. -/
def txGood : ProvenTransaction :=
  ProvenTransaction.mk payerId [OutputNote.full goodNote]

/-- Fixture environment: the bytes of `"dead"` deserialize to `txGood`, the
bytes of `"beef"` to `goodNote`, proofs verify, and the two fixture
addresses convert to the fixture account ids. -/
def env0 : CryptoEnv where
  p2idScriptRoot := 7
  noteId := fun n => n.scriptRoot + n.inputValues.length
  deserializeProvenTx := fun bs => if bs = [0xde, 0xad] then some txGood else none
  deserializeNote := fun bs => if bs = [0xbe, 0xef] then some goodNote else none
  starkVerify := fun _ => true
  fromHexAccountId := fun s =>
    if s = displayAddress addrA then some recId
    else if s = displayAddress addrB then some fauId
    else none
  accountIdToHex := fun _ => displayAddress addrFrom

/-- Fixture requirements: pay 1000000 of faucet `addrB` to `addrA` on
`miden:testnet`. -/
def reqGood : PaymentRequirements :=
  PaymentRequirements.mk ExactScheme.mk (ChainId.mk "miden" "testnet") addrA addrB "1000000" 300

/-- Fixture public-mode payload from `addrFrom`. -/
def payloadGood : MidenExactPayload :=
  MidenExactPayload.mk addrFrom "dead" "0x1234" "cafe" PrivacyMode.publicMode none

/-- Fixture public-mode verify request. -/
def requestGood : VerifyRequest :=
  VerifyRequest.mk (PaymentPayload.mk reqGood payloadGood) reqGood

/-- Fixture request whose payload `from` field names `addrA`, which differs
from the proven transaction's executing account. -/
def requestWrongFrom : VerifyRequest :=
  VerifyRequest.mk
    (PaymentPayload.mk reqGood
      (MidenExactPayload.mk addrA "dead" "0x1234" "cafe" PrivacyMode.publicMode none))
    reqGood

/-- Fixture trusted-facilitator request carrying the full note off-chain. -/
def requestTrusted : VerifyRequest :=
  VerifyRequest.mk
    (PaymentPayload.mk reqGood
      (MidenExactPayload.mk addrFrom "dead" "0x1234" "cafe"
        PrivacyMode.trustedFacilitator (some "beef")))
    reqGood

/-- Fixture trusted-facilitator request with `noteData` absent. -/
def requestTrustedNoNote : VerifyRequest :=
  VerifyRequest.mk
    (PaymentPayload.mk reqGood
      (MidenExactPayload.mk addrFrom "dead" "0x1234" "cafe"
        PrivacyMode.trustedFacilitator none))
    reqGood

/-- Fixture provider that accepts every submission. -/
def provider0 : Provider :=
  Provider.mk (fun _ _ => Except.ok "0xfeedtxid") (ChainId.mk "miden" "testnet")

/-! ## Basic lemmas about the codecs -/

theorem hexCharVal_lt {c : Char} {v : Nat} (h : hexCharVal c = some v) : v < 16 := by
  unfold hexCharVal at h
  split at h
  · simp at h; omega
  · split at h
    · simp at h; omega
    · split at h
      · simp at h; omega
      · simp at h

theorem hexCharVal_hexDigitChar {d : Nat} (h : d < 16) :
    hexCharVal (hexDigitChar d) = some d := by
  interval_cases d <;> rfl

theorem hexDigitChar_toNat_of_lt_ten {d : Nat} (h : d < 10) :
    (hexDigitChar d).toNat = 48 + d := by
  interval_cases d <;> rfl

theorem isDigitChar_hexDigitChar {d : Nat} (h : d < 10) :
    isDigitChar (hexDigitChar d) = true := by
  interval_cases d <;> rfl

theorem hexDigitChar_ne_plus {d : Nat} (h : d < 10) :
    hexDigitChar d ≠ '+' := by
  interval_cases d <;> decide

theorem hexDigitChar_ne_dot {d : Nat} (h : d < 10) :
    hexDigitChar d ≠ '.' := by
  interval_cases d <;> decide

/-- Decoding inverts encoding on genuine byte lists. -/
theorem hexDecodeList_hexEncodeList {bs : List Nat} (h : ∀ b ∈ bs, b < 256) :
    hexDecodeList (hexEncodeList bs) = some bs := by
  induction bs with
  | nil => rfl
  | cons b r ih =>
    have hb : b < 256 := h b (List.mem_cons_self b r)
    have hr : ∀ x ∈ r, x < 256 := fun x hx => h x (List.mem_cons_of_mem b hx)
    have h1 : b / 16 < 16 := by omega
    have h2 : b % 16 < 16 := by omega
    simp only [hexEncodeList, hexDecodeList, hexCharVal_hexDigitChar h1,
      hexCharVal_hexDigitChar h2, ih hr]
    have : 16 * (b / 16) + b % 16 = b := by omega
    rw [this]

/-- Encoding a successfully decoded list reproduces the input up to
lowercasing of the hex digits. -/
theorem hexEncodeList_of_decode :
    ∀ {cs : List Char} {bs : List Nat}, hexDecodeList cs = some bs →
      hexEncodeList bs = cs.map hexCharToLower
  | [], bs, h => by
    simp only [hexDecodeList] at h
    cases h
    rfl
  | [_], _, h => by
    simp only [hexDecodeList] at h
    exact Option.noConfusion h
  | a :: b :: r, bs, h => by
    simp only [hexDecodeList] at h
    cases ha : hexCharVal a with
    | none => rw [ha] at h; simp at h
    | some va =>
      cases hb : hexCharVal b with
      | none => rw [ha, hb] at h; simp at h
      | some vb =>
        cases hr : hexDecodeList r with
        | none => rw [ha, hb, hr] at h; simp at h
        | some rest =>
          rw [ha, hb, hr] at h
          simp only [Option.some.injEq] at h
          subst h
          have hva : va < 16 := hexCharVal_lt ha
          have hvb : vb < 16 := hexCharVal_lt hb
          have hdiv : (16 * va + vb) / 16 = va := by omega
          have hmod : (16 * va + vb) % 16 = vb := by omega
          simp only [hexEncodeList, hdiv, hmod, hexEncodeList_of_decode hr,
            List.map, hexCharToLower, ha, hb]

/-- An even-length string of hex digits decodes successfully. -/
theorem hexDecodeList_isSome :
    ∀ {cs : List Char}, cs.length % 2 = 0 →
      (∀ c ∈ cs, (hexCharVal c).isSome) → (hexDecodeList cs).isSome
  | [], _, _ => by simp [hexDecodeList]
  | [c], h, _ => by simp at h
  | a :: b :: r, h, hall => by
    have ha : (hexCharVal a).isSome := hall a (by simp)
    have hb : (hexCharVal b).isSome := hall b (by simp)
    have hr : (hexDecodeList r).isSome := by
      refine hexDecodeList_isSome ?_ ?_
      · simp only [List.length_cons] at h
        omega
      · exact fun c hc => hall c (by simp [hc])
    rcases Option.isSome_iff_exists.mp ha with ⟨va, hva⟩
    rcases Option.isSome_iff_exists.mp hb with ⟨vb, hvb⟩
    rcases Option.isSome_iff_exists.mp hr with ⟨rest, hrest⟩
    simp [hexDecodeList, hva, hvb, hrest]

/-! ## Decimal rendering and `u64` parsing lemmas -/

theorem digitsRevFuel_lt_ten :
    ∀ {f n : Nat}, ∀ d ∈ digitsRevFuel f n, d < 10
  | 0, n => by simp [digitsRevFuel]
  | f + 1, n => by
    simp only [digitsRevFuel]
    split
    · simp
    · intro d hd
      rcases List.mem_cons.mp hd with h | h
      · omega
      · exact digitsRevFuel_lt_ten d h

theorem digitsRevFuel_foldl :
    ∀ (f n a : Nat), n ≤ f →
      List.foldl (fun a c => a * 10 + (c.toNat - 48)) a
          (((digitsRevFuel f n).map hexDigitChar).reverse) =
        a * 10 ^ (digitsRevFuel f n).length + n
  | 0, n, a, h => by
    have : n = 0 := by omega
    subst this
    simp [digitsRevFuel]
  | f + 1, n, a, h => by
    by_cases hn : n = 0
    · subst hn
      simp [digitsRevFuel]
    · have hle : n / 10 ≤ f := by
        have : n / 10 < n := Nat.div_lt_self (by omega) (by omega)
        omega
      have ih := digitsRevFuel_foldl f (n / 10) a hle
      simp only [digitsRevFuel, hn, if_false, List.map_cons, List.reverse_cons,
        List.foldl_append, List.foldl_cons, List.foldl_nil, List.length_cons]
      rw [ih, hexDigitChar_toNat_of_lt_ten (by omega)]
      have hsub : 48 + n % 10 - 48 = n % 10 := by omega
      rw [hsub]
      have : 10 * (n / 10) + n % 10 = n := Nat.div_add_mod n 10
      ring_nf
      omega

theorem digitsRevFuel_length_le :
    ∀ {f n d : Nat}, n ≤ f → n < 10 ^ d → (digitsRevFuel f n).length ≤ d
  | 0, n, d, h, hd => by simp [digitsRevFuel]
  | f + 1, n, d, h, hd => by
    by_cases hn : n = 0
    · subst hn; simp [digitsRevFuel]
    · have hdpos : 1 ≤ d := by
        rcases Nat.eq_zero_or_pos d with h0 | h1
        · subst h0; simp at hd; omega
        · exact h1
      have hlt : n / 10 < 10 ^ (d - 1) := by
        have h10 : (10 : Nat) ^ d = 10 ^ (d - 1) * 10 := by
          have : d - 1 + 1 = d := by omega
          calc (10 : Nat) ^ d = 10 ^ (d - 1 + 1) := by rw [this]
            _ = 10 ^ (d - 1) * 10 := pow_succ 10 (d - 1)
        refine Nat.div_lt_of_lt_mul ?_
        omega
      have hle : n / 10 ≤ f := by
        have : n / 10 < n := Nat.div_lt_self (by omega) (by omega)
        omega
      have ih := digitsRevFuel_length_le (f := f) (n := n / 10) (d := d - 1) hle hlt
      simp only [digitsRevFuel, hn, if_false, List.length_cons]
      omega

/-- The decimal characters of `n` are all digits. -/
theorem natDecChars_all_digits (n : Nat) : (natDecChars n).all isDigitChar = true := by
  unfold natDecChars
  split
  · rfl
  · rw [List.all_eq_true]
    intro c hc
    rw [List.mem_reverse, List.mem_map] at hc
    rcases hc with ⟨d, hd, rfl⟩
    exact isDigitChar_hexDigitChar (digitsRevFuel_lt_ten d hd)

/-- The decimal characters of `n` are nonempty. -/
theorem natDecChars_ne_nil (n : Nat) : natDecChars n ≠ [] := by
  unfold natDecChars
  split
  · simp
  · simp only [ne_eq, List.reverse_eq_nil_iff, List.map_eq_nil_iff]
    intro hnil
    have hfold := digitsRevFuel_foldl n n 0 (le_refl n)
    rw [hnil] at hfold
    simp at hfold
    omega

/-- Reading back the decimal digits of `n` gives `n`. -/
theorem decDigitsVal_natDecChars (n : Nat) : decDigitsVal (natDecChars n) = n := by
  unfold natDecChars decDigitsVal
  split
  · simp_all
  · have := digitsRevFuel_foldl n n 0 (le_refl n)
    simpa using this

theorem stripPlus_of_digits {cs : List Char} (h : cs.all isDigitChar = true) :
    stripPlus cs = cs := by
  unfold stripPlus
  split
  · exfalso
    simp only [List.all_cons, Bool.and_eq_true] at h
    exact absurd h.1 (by decide)
  · rfl

/-- `u64::from_str` parses the decimal rendering of any `n < 2 ^ 64`. -/
theorem parseU64_natDecString {n : Nat} (h : n < u64Size) :
    parseU64 (natDecString n) = some n := by
  unfold parseU64 natDecString parseU64Chars
  simp only [String.data]
  rw [stripPlus_of_digits (natDecChars_all_digits n)]
  have hne : natDecChars n ≠ [] := natDecChars_ne_nil n
  simp only [List.isEmpty_iff, hne, if_false, natDecChars_all_digits n, if_true,
    decDigitsVal_natDecChars n, h, if_true]

/-- `u64::from_str` fails on the decimal rendering of any `n ≥ 2 ^ 64`. -/
theorem parseU64_natDecString_overflow {n : Nat} (h : ¬ n < u64Size) :
    parseU64 (natDecString n) = none := by
  unfold parseU64 natDecString parseU64Chars
  simp only [String.data]
  rw [stripPlus_of_digits (natDecChars_all_digits n)]
  have hne : natDecChars n ≠ [] := natDecChars_ne_nil n
  simp only [List.isEmpty_iff, hne, if_false, natDecChars_all_digits n, if_true,
    decDigitsVal_natDecChars n, h, if_false]

theorem strip0x_append (r : List Char) : strip0x ('0' :: 'x' :: r) = r := rfl

/-- Parsing the display form recovers the address. -/
theorem midenAddressFromStr_displayAddress {a : MidenAccountAddress}
    (h : validAddress a) : midenAddressFromStr (displayAddress a) = Except.ok a := by
  obtain ⟨hlen, hbytes⟩ := h
  unfold midenAddressFromStr displayAddress
  have hdata : ("0x" ++ hexEncodeStr a.bytes).data = '0' :: 'x' :: hexEncodeList a.bytes := by
    simp [hexEncodeStr, String.data_append]
  rw [hdata, strip0x_append, hexDecodeList_hexEncodeList hbytes]
  simp [hlen]

/-! ## C5, C6: the requirements-match step -/

/-- C5: `check_requirements_match(accepted, required)` is `Ok` iff scheme,
network, pay_to and asset agree and the accepted amount, parsed as a `u64`,
is at least the required amount parsed as a `u64`. -/
theorem check_requirements_match_iff (p : PaymentPayload) (r : PaymentRequirements) :
    checkRequirementsMatch p r = Except.ok () ↔
      (schemeToString p.accepted.scheme = schemeToString r.scheme ∧
       p.accepted.network = r.network ∧
       p.accepted.payTo = r.payTo ∧
       p.accepted.asset = r.asset ∧
       ∃ requiredAmount acceptedAmount,
         parseU64 r.amount = some requiredAmount ∧
         parseU64 p.accepted.amount = some acceptedAmount ∧
         requiredAmount ≤ acceptedAmount) := by
  by_cases h2 : p.accepted.network = r.network
  · by_cases h3 : p.accepted.payTo = r.payTo
    · by_cases h4 : p.accepted.asset = r.asset
      · cases hra : parseU64 r.amount with
        | none => simp [checkRequirementsMatch, h2, h3, h4, hra]
        | some requiredAmount =>
          cases haa : parseU64 p.accepted.amount with
          | none => simp [checkRequirementsMatch, h2, h3, h4, hra, haa]
          | some acceptedAmount =>
            by_cases hlt : acceptedAmount < requiredAmount
            all_goals simp [checkRequirementsMatch, h2, h3, h4, hra, haa, hlt]
            all_goals omega
      · simp [checkRequirementsMatch, h2, h3, h4]
    · simp [checkRequirementsMatch, h2, h3]
  · simp [checkRequirementsMatch, h2]

/-- C6: each failing field of the requirements-match step yields its
specific error kind, in check order (scheme, network, pay_to, asset,
amount), and the amount comparison is numeric over `u64` — witnessed by the
final conjunct, where the accepted amount `"10"` is lexicographically below
the required `"9"` yet the check passes. -/
theorem check_requirements_match_error_kinds (p : PaymentPayload) (r : PaymentRequirements) :
    (schemeToString p.accepted.scheme ≠ schemeToString r.scheme →
      checkRequirementsMatch p r = Except.error (MidenExactError.schemeMismatch
        (schemeToString r.scheme) (schemeToString p.accepted.scheme))) ∧
    (schemeToString p.accepted.scheme = schemeToString r.scheme →
      p.accepted.network ≠ r.network →
      checkRequirementsMatch p r = Except.error (MidenExactError.chainIdMismatch
        (chainIdToString r.network) (chainIdToString p.accepted.network))) ∧
    (schemeToString p.accepted.scheme = schemeToString r.scheme →
      p.accepted.network = r.network → p.accepted.payTo ≠ r.payTo →
      checkRequirementsMatch p r = Except.error (MidenExactError.recipientMismatch
        (displayAddress r.payTo) (displayAddress p.accepted.payTo))) ∧
    (schemeToString p.accepted.scheme = schemeToString r.scheme →
      p.accepted.network = r.network → p.accepted.payTo = r.payTo →
      p.accepted.asset ≠ r.asset →
      checkRequirementsMatch p r = Except.error (MidenExactError.assetMismatch
        (displayAddress r.asset) (displayAddress p.accepted.asset))) ∧
    (∀ requiredAmount acceptedAmount,
      schemeToString p.accepted.scheme = schemeToString r.scheme →
      p.accepted.network = r.network → p.accepted.payTo = r.payTo →
      p.accepted.asset = r.asset →
      parseU64 r.amount = some requiredAmount →
      parseU64 p.accepted.amount = some acceptedAmount →
      acceptedAmount < requiredAmount →
      checkRequirementsMatch p r = Except.error (MidenExactError.insufficientPayment
        r.amount p.accepted.amount)) ∧
    (checkRequirementsMatch
        (PaymentPayload.mk
          (PaymentRequirements.mk ExactScheme.mk (ChainId.mk "miden" "testnet")
            addrA addrB "10" 300) payloadGood)
        (PaymentRequirements.mk ExactScheme.mk (ChainId.mk "miden" "testnet")
          addrA addrB "9" 300) = Except.ok () ∧
      "10".data < "9".data) := by
  refine ⟨?_, ?_, ?_, ?_, ?_, by decide, by decide⟩
  · intro h1
    exact absurd rfl h1
  · intro h1 h2
    simp [checkRequirementsMatch, h1, h2]
  · intro h1 h2 h3
    simp [checkRequirementsMatch, h1, h2, h3]
  · intro h1 h2 h3 h4
    simp [checkRequirementsMatch, h1, h2, h3, h4]
  · intro requiredAmount acceptedAmount h1 h2 h3 h4 hra haa hlt
    simp [checkRequirementsMatch, h1, h2, h3, h4, hra, haa, hlt]

/-- C6 witness: the chain-id mismatch branch applied at a concrete pair of
requirements differing only in network. -/
theorem check_requirements_match_error_kinds_checked :
    checkRequirementsMatch
        (PaymentPayload.mk
          (PaymentRequirements.mk ExactScheme.mk (ChainId.mk "miden" "mainnet")
            addrA addrB "1000000" 300) payloadGood) reqGood =
      Except.error (MidenExactError.chainIdMismatch "miden:testnet" "miden:mainnet") :=
  (check_requirements_match_error_kinds
    (PaymentPayload.mk
      (PaymentRequirements.mk ExactScheme.mk (ChainId.mk "miden" "mainnet")
        addrA addrB "1000000" 300) payloadGood) reqGood).2.1 rfl (by decide)

/-! ## C2: the stub verifier (miden-native disabled) -/

/-- C2: without the `miden-native` feature, `verify_miden_payment` never
returns `Valid`: when the requirements match it fails with the
`InvalidProof` "verification unavailable" error, and the requirements-match
check still runs first, so a mismatch surfaces as its specific error. -/
theorem stub_verify_never_valid (request : VerifyRequest) :
    (∀ resp, verifyMidenPaymentStub request ≠ Except.ok resp) ∧
    (checkRequirementsMatch request.paymentPayload request.paymentRequirements =
        Except.ok () →
      verifyMidenPaymentStub request = Except.error (MidenExactError.invalidProof
        "STARK proof verification unavailable: miden-native feature not enabled")) ∧
    (∀ e, checkRequirementsMatch request.paymentPayload request.paymentRequirements =
        Except.error e → verifyMidenPaymentStub request = Except.error e) := by
  refine ⟨?_, ?_, ?_⟩
  · intro resp h
    unfold verifyMidenPaymentStub at h
    cases hc : checkRequirementsMatch request.paymentPayload request.paymentRequirements with
    | error e => rw [hc] at h; exact Except.noConfusion h
    | ok u => rw [hc] at h; exact Except.noConfusion h
  · intro h
    unfold verifyMidenPaymentStub
    rw [h]
  · intro e h
    unfold verifyMidenPaymentStub
    rw [h]

/-- C2 witness: at the concrete fixture request (whose requirements match),
the stub fails with the unavailability error; and at a mismatching request
it fails with the chain-id mismatch, not `InvalidProof`. -/
theorem stub_verify_never_valid_checked :
    verifyMidenPaymentStub requestGood = Except.error (MidenExactError.invalidProof
      "STARK proof verification unavailable: miden-native feature not enabled") :=
  (stub_verify_never_valid requestGood).2.1 (by decide)

/-! ## C1: public-mode note inspection -/

/-- C1: for a verify request in Public privacy mode whose pipeline reaches
note inspection (requirements match, hex decode, `ProvenTransaction`
deserialization, STARK verification, and recipient / faucet / amount
parsing all succeed), verification succeeds iff some output note in the
full on-chain-visible variant carries the P2ID script root, at least two
input field elements, the target recovered as `[inputs[1], inputs[0]]`
equal to the required recipient, and a fungible asset of the required
faucet with at least the required amount; with no matching note it fails
with `PaymentNotFound`. -/
theorem verify_public_mode_iff_matching_note (env : CryptoEnv) (request : VerifyRequest)
    (provenTxBytes txInputsBytes : List Nat) (provenTx : ProvenTransaction)
    (requiredRecipient requiredFaucet : AccountId) (requiredAmount : Nat)
    (hmode : request.paymentPayload.payload.privacyMode = PrivacyMode.publicMode)
    (hreq : checkRequirementsMatch request.paymentPayload request.paymentRequirements =
      Except.ok ())
    (hptx : hexDecodeStr request.paymentPayload.payload.provenTransaction =
      some provenTxBytes)
    (hti : hexDecodeStr request.paymentPayload.payload.transactionInputs =
      some txInputsBytes)
    (hde : env.deserializeProvenTx provenTxBytes = some provenTx)
    (hsv : env.starkVerify provenTx = true)
    (hrec : toAccountId env request.paymentRequirements.payTo = some requiredRecipient)
    (hfau : toAccountId env request.paymentRequirements.asset = some requiredFaucet)
    (hamt : parseU64 request.paymentRequirements.amount = some requiredAmount) :
    ((∃ resp, verifyMidenPayment env request = Except.ok resp) ↔
      provenTx.outputNotes.any
        (publicNoteMatches env requiredRecipient requiredFaucet requiredAmount) = true) ∧
    (provenTx.outputNotes.any
        (publicNoteMatches env requiredRecipient requiredFaucet requiredAmount) = false →
      verifyMidenPayment env request = Except.error (MidenExactError.paymentNotFound
        "No P2ID output note found matching the required recipient, faucet, and amount")) := by
  have hv : verifyMidenPayment env request =
      (if provenTx.outputNotes.any
          (publicNoteMatches env requiredRecipient requiredFaucet requiredAmount)
        then Except.ok (VerifyResponse.valid
          (displayAddress (fromAccountId env provenTx.accountId)))
        else Except.error (MidenExactError.paymentNotFound
          "No P2ID output note found matching the required recipient, faucet, and amount")) := by
    simp only [verifyMidenPayment, decodePayloadBytes, hreq, hptx, hti, hde, hsv,
      hrec, hfau, hamt, hmode, verifyPublicNote, if_true]
    cases provenTx.outputNotes.any
        (publicNoteMatches env requiredRecipient requiredFaucet requiredAmount) <;> simp
  cases hany : provenTx.outputNotes.any
      (publicNoteMatches env requiredRecipient requiredFaucet requiredAmount) with
  | false =>
    rw [hany] at hv
    simp only [if_false, Bool.false_eq_true] at hv ⊢
    exact ⟨⟨fun ⟨resp, hr⟩ => by rw [hv] at hr; exact Except.noConfusion hr,
      fun h => by exact absurd h (by simp)⟩, fun _ => hv⟩
  | true =>
    rw [hany] at hv
    simp only [if_true] at hv
    refine ⟨⟨fun _ => rfl, fun _ => ⟨_, hv⟩⟩, fun h => by simp at h⟩

/-- C1 witness: the fixture public-mode request with a matching P2ID
output note verifies successfully. -/
theorem verify_public_mode_iff_matching_note_checked :
    (∃ resp, verifyMidenPayment env0 requestGood = Except.ok resp) ∧
    verifyMidenPayment env0 requestGood =
      Except.ok (VerifyResponse.valid (displayAddress addrFrom)) :=
  ⟨(verify_public_mode_iff_matching_note env0 requestGood
      [0xde, 0xad] [0xca, 0xfe] txGood recId fauId 1000000
      rfl (by decide) (by decide) (by decide) (by decide) (by decide)
      (by decide) (by decide) (by decide)).1.mpr (by decide),
    by decide⟩

/-! ## C10: public mode ignores note_data -/

/-- C10: in Public privacy mode the verifier's result does not depend on
the payload's `noteData` field — replacing it by any value (including
`none` or junk) leaves the verdict unchanged. -/
theorem verify_public_ignores_note_data (env : CryptoEnv) (request : VerifyRequest)
    (nd : Option String)
    (hmode : request.paymentPayload.payload.privacyMode = PrivacyMode.publicMode) :
    verifyMidenPayment env (withNoteData request nd) = verifyMidenPayment env request := by
  simp only [verifyMidenPayment, decodePayloadBytes, withNoteData, hmode]
  rfl

/-- C10 witness: attaching junk `noteData` to the fixture public-mode
request leaves the verdict unchanged. -/
theorem verify_public_ignores_note_data_checked :
    verifyMidenPayment env0 (withNoteData requestGood (some "zz")) =
      verifyMidenPayment env0 requestGood :=
  verify_public_ignores_note_data env0 requestGood (some "zz") rfl

/-! ## C3: trusted-facilitator note binding -/

/-- C3: in TrustedFacilitator privacy mode, once the pipeline reaches note
inspection, an absent `noteData` fails with `DeserializationError`; a
present `noteData` that decodes and deserializes to a full note fails with
`NoteBindingFailed` whenever the note's id matches no output-note id of the
proven transaction; and only a note passing the binding is checked for
P2ID target and assets, mismatches surfacing as `RecipientMismatch` or
`PaymentNotFound`. -/
theorem trusted_mode_note_binding (env : CryptoEnv) (request : VerifyRequest)
    (provenTxBytes txInputsBytes : List Nat) (provenTx : ProvenTransaction)
    (requiredRecipient requiredFaucet : AccountId) (requiredAmount : Nat)
    (hmode : request.paymentPayload.payload.privacyMode = PrivacyMode.trustedFacilitator)
    (hreq : checkRequirementsMatch request.paymentPayload request.paymentRequirements =
      Except.ok ())
    (hptx : hexDecodeStr request.paymentPayload.payload.provenTransaction =
      some provenTxBytes)
    (hti : hexDecodeStr request.paymentPayload.payload.transactionInputs =
      some txInputsBytes)
    (hde : env.deserializeProvenTx provenTxBytes = some provenTx)
    (hsv : env.starkVerify provenTx = true)
    (hrec : toAccountId env request.paymentRequirements.payTo = some requiredRecipient)
    (hfau : toAccountId env request.paymentRequirements.asset = some requiredFaucet)
    (hamt : parseU64 request.paymentRequirements.amount = some requiredAmount) :
    (request.paymentPayload.payload.noteData = none →
      verifyMidenPayment env request = Except.error (MidenExactError.deserializationError
        "note_data is required for trusted_facilitator privacy mode")) ∧
    (∀ noteDataHex noteBytes note,
      request.paymentPayload.payload.noteData = some noteDataHex →
      hexDecodeStr noteDataHex = some noteBytes →
      env.deserializeNote noteBytes = some note →
      ((provenTx.outputNotes.any
          (fun o => decide (outputNoteId env o = env.noteId note)) = false →
        verifyMidenPayment env request = Except.error (MidenExactError.noteBindingFailed
          "Note ID does not match any output note in the proven transaction")) ∧
       (provenTx.outputNotes.any
          (fun o => decide (outputNoteId env o = env.noteId note)) = true →
        note.scriptRoot = env.p2idScriptRoot →
        2 ≤ note.inputValues.length →
        p2idTarget note ≠ requiredRecipient →
        verifyMidenPayment env request = Except.error (MidenExactError.recipientMismatch
          (accountIdToString requiredRecipient) (accountIdToString (p2idTarget note)))) ∧
       (provenTx.outputNotes.any
          (fun o => decide (outputNoteId env o = env.noteId note)) = true →
        note.scriptRoot = env.p2idScriptRoot →
        2 ≤ note.inputValues.length →
        p2idTarget note = requiredRecipient →
        note.assets.any (assetPays requiredFaucet requiredAmount) = false →
        verifyMidenPayment env request = Except.error (MidenExactError.paymentNotFound
          "Off-chain note does not contain the required faucet and amount")))) := by
  constructor
  · intro hnd
    simp only [verifyMidenPayment, decodePayloadBytes, hreq, hptx, hti, hde, hsv,
      hrec, hfau, hamt, hmode, hnd, if_true]
  · intro noteDataHex noteBytes note hnd hnb hdn
    refine ⟨?_, ?_, ?_⟩
    · intro hbind
      simp only [verifyMidenPayment, decodePayloadBytes, hreq, hptx, hti, hde, hsv,
        hrec, hfau, hamt, hmode, hnd, verifyTrustedFacilitatorNote, hnb, hdn,
        hbind, if_true, Bool.false_eq_true, if_false]
    · intro hbind hroot hlen htarget
      simp only [verifyMidenPayment, decodePayloadBytes, hreq, hptx, hti, hde, hsv,
        hrec, hfau, hamt, hmode, hnd, verifyTrustedFacilitatorNote, hnb, hdn,
        hbind, hroot, hlen, htarget, if_true, if_false]
    · intro hbind hroot hlen htarget hassets
      simp only [verifyMidenPayment, decodePayloadBytes, hreq, hptx, hti, hde, hsv,
        hrec, hfau, hamt, hmode, hnd, verifyTrustedFacilitatorNote, hnb, hdn,
        hbind, hroot, hlen, htarget, hassets, if_true, Bool.false_eq_true, if_false]

/-- C3 witness: the fixture trusted-facilitator request with `noteData`
absent fails with the `DeserializationError`. -/
theorem trusted_mode_note_binding_checked :
    verifyMidenPayment env0 requestTrustedNoNote =
      Except.error (MidenExactError.deserializationError
        "note_data is required for trusted_facilitator privacy mode") :=
  (trusted_mode_note_binding env0 requestTrustedNoNote
    [0xde, 0xad] [0xca, 0xfe] txGood recId fauId 1000000
    rfl (by decide) (by decide) (by decide) (by decide) (by decide)
    (by decide) (by decide) (by decide)).1 rfl

/-! ## C7: payer recovery (corrected) -/

/-- C7 counterexample: the verifier accepts the fixture request whose
payload `from` address is `addrA`, while the account id recovered from the
proven transaction serializes to `addrFrom`'s display form — so an accepted
payload's `from` address need not equal the recovered rollup account id. -/
theorem verify_accepts_mismatched_from :
    verifyMidenPayment env0 requestWrongFrom =
      Except.ok (VerifyResponse.valid (displayAddress (fromAccountId env0 txGood.accountId))) ∧
    fromAccountId env0 txGood.accountId = addrFrom ∧
    requestWrongFrom.paymentPayload.payload.fromAddress ≠ addrFrom := by
  refine ⟨by decide, by decide, by decide⟩

/-- C7 amended: whenever the verifier returns `Valid(payer)`, the payer is
the account id recovered from the deserialized proven transaction,
serialized back to `AccountAddress` display form; the payload's `from`
address is not checked against it. -/
theorem verify_payer_from_proven_tx (env : CryptoEnv) (request : VerifyRequest)
    (resp : VerifyResponse)
    (h : verifyMidenPayment env request = Except.ok resp) :
    ∃ provenTxBytes provenTx,
      hexDecodeStr request.paymentPayload.payload.provenTransaction = some provenTxBytes ∧
      env.deserializeProvenTx provenTxBytes = some provenTx ∧
      env.starkVerify provenTx = true ∧
      resp = VerifyResponse.valid (displayAddress (fromAccountId env provenTx.accountId)) := by
  simp only [verifyMidenPayment, decodePayloadBytes] at h
  cases hreq : checkRequirementsMatch request.paymentPayload request.paymentRequirements with
  | error e => simp [hreq] at h
  | ok u =>
    simp only [hreq] at h
    cases hptx : hexDecodeStr request.paymentPayload.payload.provenTransaction with
    | none => simp [hptx] at h
    | some provenTxBytes =>
      simp only [hptx] at h
      cases hti : hexDecodeStr request.paymentPayload.payload.transactionInputs with
      | none => simp [hti] at h
      | some txInputsBytes =>
        simp only [hti] at h
        cases hde : env.deserializeProvenTx provenTxBytes with
        | none => simp [hde] at h
        | some provenTx =>
          simp only [hde] at h
          cases hsv : env.starkVerify provenTx with
          | false => simp [hsv] at h
          | true =>
            simp only [hsv, if_true] at h
            cases hrec : toAccountId env request.paymentRequirements.payTo with
            | none => simp [hrec] at h
            | some requiredRecipient =>
              simp only [hrec] at h
              cases hfau : toAccountId env request.paymentRequirements.asset with
              | none => simp [hfau] at h
              | some requiredFaucet =>
                simp only [hfau] at h
                cases hamt : parseU64 request.paymentRequirements.amount with
                | none => simp [hamt] at h
                | some requiredAmount =>
                  simp only [hamt] at h
                  refine ⟨provenTxBytes, provenTx, rfl, hde, hsv, ?_⟩
                  cases hnote :
                      (match request.paymentPayload.payload.privacyMode with
                       | PrivacyMode.publicMode =>
                         verifyPublicNote env provenTx requiredRecipient requiredFaucet
                           requiredAmount
                       | PrivacyMode.trustedFacilitator =>
                         match request.paymentPayload.payload.noteData with
                         | none => Except.error (MidenExactError.deserializationError
                             "note_data is required for trusted_facilitator privacy mode")
                         | some noteDataHex =>
                           verifyTrustedFacilitatorNote env provenTx noteDataHex
                             requiredRecipient requiredFaucet requiredAmount) with
                  | error e => simp [hnote] at h
                  | ok v =>
                    simp only [hnote] at h
                    injection h with h2
                    exact h2.symm

/-- C7 amended witness: at the fixture request the verifier returns exactly
the serialized recovered account id as payer. -/
theorem verify_payer_from_proven_tx_checked :
    ∃ provenTxBytes provenTx,
      hexDecodeStr requestGood.paymentPayload.payload.provenTransaction = some provenTxBytes ∧
      env0.deserializeProvenTx provenTxBytes = some provenTx ∧
      env0.starkVerify provenTx = true ∧
      VerifyResponse.valid (displayAddress addrFrom) =
        VerifyResponse.valid (displayAddress (fromAccountId env0 provenTx.accountId)) :=
  verify_payer_from_proven_tx env0 requestGood
    (VerifyResponse.valid (displayAddress addrFrom)) (by decide)

/-! ## C4: settlement -/

/-- C4: settlement re-runs the full verifier first — on verification
failure it returns that error and issues no submit call; on verification
success and submission success it returns `Success` with payer equal to the
payload's `from` address, the provider-returned transaction id, and the
provider's chain id as network; on submission failure it returns
`ProviderError` wrapping the cause. -/
theorem settle_reverifies_then_submits (env : CryptoEnv) (provider : Provider)
    (request : VerifyRequest) (provenTxBytes txInputsBytes : List Nat)
    (hptx : hexDecodeStr request.paymentPayload.payload.provenTransaction =
      some provenTxBytes)
    (hti : hexDecodeStr request.paymentPayload.payload.transactionInputs =
      some txInputsBytes) :
    (∀ e, verifyMidenPayment env request = Except.error e →
      settleMidenPayment env provider request = (Except.error e, [])) ∧
    (∀ resp txId, verifyMidenPayment env request = Except.ok resp →
      provider.submit provenTxBytes txInputsBytes = Except.ok txId →
      settleMidenPayment env provider request =
        (Except.ok (SettleResponse.success
          (displayAddress request.paymentPayload.payload.fromAddress) txId
          (chainIdToString provider.chainId)), [(provenTxBytes, txInputsBytes)])) ∧
    (∀ resp e, verifyMidenPayment env request = Except.ok resp →
      provider.submit provenTxBytes txInputsBytes = Except.error e →
      settleMidenPayment env provider request =
        (Except.error (MidenExactError.providerError e), [(provenTxBytes, txInputsBytes)])) := by
  refine ⟨?_, ?_, ?_⟩
  · intro e hv
    simp only [settleMidenPayment, hv]
  · intro resp txId hv hs
    simp only [settleMidenPayment, decodePayloadBytes, hv, hptx, hti, hs]
  · intro resp e hv hs
    simp only [settleMidenPayment, decodePayloadBytes, hv, hptx, hti, hs]

/-- C4 witness: at the fixture request and the always-accepting provider,
settlement succeeds with the payload's `from` address as payer, the
provider-returned transaction id, and the provider chain id, after exactly
one submit call with the decoded bytes. -/
theorem settle_reverifies_then_submits_checked :
    settleMidenPayment env0 provider0 requestGood =
      (Except.ok (SettleResponse.success
        (displayAddress requestGood.paymentPayload.payload.fromAddress) "0xfeedtxid"
        (chainIdToString provider0.chainId)), [([0xde, 0xad], [0xca, 0xfe])]) :=
  (settle_reverifies_then_submits env0 provider0 requestGood
    [0xde, 0xad] [0xca, 0xfe] (by decide) (by decide)).2.1
    (VerifyResponse.valid (displayAddress addrFrom)) "0xfeedtxid" (by decide) rfl

/-! ## C8: address round-trips (corrected) -/

theorem hexDecodeList_length :
    ∀ {cs : List Char} {bs : List Nat}, hexDecodeList cs = some bs →
      bs.length = cs.length / 2
  | [], bs, h => by
    simp only [hexDecodeList, Option.some.injEq] at h
    subst h
    rfl
  | [_], _, h => by
    simp only [hexDecodeList] at h
    exact Option.noConfusion h
  | a :: b :: r, bs, h => by
    simp only [hexDecodeList] at h
    cases ha : hexCharVal a with
    | none => rw [ha] at h; simp at h
    | some va =>
      cases hb : hexCharVal b with
      | none => rw [ha, hb] at h; simp at h
      | some vb =>
        cases hr : hexDecodeList r with
        | none => rw [ha, hb, hr] at h; simp at h
        | some rest =>
          rw [ha, hb, hr] at h
          simp only [Option.some.injEq] at h
          subst h
          have := hexDecodeList_length hr
          simp only [List.length_cons, this]
          omega

/-- A list of hex digit characters is left unchanged by `strip0x`
(its second character cannot be `x`). -/
theorem strip0x_of_hex {cs : List Char} (h : ∀ c ∈ cs, (hexCharVal c).isSome) :
    strip0x cs = cs := by
  unfold strip0x
  split
  · rename_i r
    have hx := h 'x' (by simp)
    simp [hexCharVal] at hx
  · rfl

/-- C8 amended: `parse(format(a)) = a` for every valid address, and
`format(parse(hex30)) = "0x" ++ lowercase(hex30)` for every string of 30
hex digits; but parsing is not restricted to the canonical `0x`-prefixed
lowercase form — it also accepts the bare and mixed-case variants (see the
counterexample theorem). -/
theorem address_roundtrip (a : MidenAccountAddress) (ha : validAddress a)
    (s : List Char) (hlen : s.length = 30)
    (hhex : ∀ c ∈ s, (hexCharVal c).isSome) :
    midenAddressFromStr (displayAddress a) = Except.ok a ∧
    ∃ b, midenAddressFromStr (String.mk s) = Except.ok b ∧
      displayAddress b = String.mk ('0' :: 'x' :: s.map hexCharToLower) := by
  refine ⟨midenAddressFromStr_displayAddress ha, ?_⟩
  have hsome : (hexDecodeList s).isSome := by
    refine hexDecodeList_isSome ?_ hhex
    rw [hlen]
  rcases Option.isSome_iff_exists.mp hsome with ⟨bs, hbs⟩
  have hblen : bs.length = 15 := by
    have := hexDecodeList_length hbs
    rw [hlen] at this
    omega
  refine ⟨MidenAccountAddress.mk bs, ?_, ?_⟩
  · unfold midenAddressFromStr
    simp only [String.data]
    rw [strip0x_of_hex hhex, hbs]
    simp [hblen, midenAccountIdByteLen]
  · unfold displayAddress hexEncodeStr
    rw [hexEncodeList_of_decode hbs]
    rfl

/-- C8 counterexample: the claim that only the canonical `0x`-prefixed
lowercase form parses is false — the bare lowercase form (asserted to
parse by the crate's own `test_miden_address_without_prefix` test) and the
bare uppercase form both parse successfully. -/
theorem address_parse_noncanonical :
    midenAddressFromStr "abcdef1234567890abcdef12345678" =
      Except.ok (MidenAccountAddress.mk [0xab, 0xcd, 0xef, 0x12, 0x34, 0x56, 0x78,
        0x90, 0xab, 0xcd, 0xef, 0x12, 0x34, 0x56, 0x78]) ∧
    midenAddressFromStr "ABCDEF1234567890ABCDEF12345678" =
      Except.ok (MidenAccountAddress.mk [0xab, 0xcd, 0xef, 0x12, 0x34, 0x56, 0x78,
        0x90, 0xab, 0xcd, 0xef, 0x12, 0x34, 0x56, 0x78]) := by
  exact ⟨by decide, by decide⟩

/-- C8 witness: both round-trip laws applied at the fixture address and a
concrete 30-hex-digit string. -/
theorem address_roundtrip_checked :
    midenAddressFromStr (displayAddress addrA) = Except.ok addrA ∧
    ∃ b, midenAddressFromStr (String.mk "37d5977a8E16D8205a360820f0230f".data) =
        Except.ok b ∧
      displayAddress b =
        String.mk ('0' :: 'x' :: "37d5977a8E16D8205a360820f0230f".data.map hexCharToLower) :=
  address_roundtrip addrA (by unfold validAddress; decide)
    "37d5977a8E16D8205a360820f0230f".data (by decide) (by decide)

/-! ## C9: token amount parsing (corrected) -/

theorem splitDot_no_dot :
    ∀ {cs : List Char}, (∀ c ∈ cs, c ≠ '.') → splitDot cs = [cs]
  | [], _ => rfl
  | c :: r, h => by
    have hc : c ≠ '.' := h c (List.mem_cons_self c r)
    have hr : splitDot r = [r] :=
      splitDot_no_dot (fun x hx => h x (List.mem_cons_of_mem c hx))
    simp [splitDot, if_neg hc, hr]

theorem splitDot_sep (w f : List Char) (hw : ∀ c ∈ w, c ≠ '.')
    (hf : ∀ c ∈ f, c ≠ '.') : splitDot (w ++ '.' :: f) = [w, f] := by
  induction w with
  | nil =>
    simp [splitDot, splitDot_no_dot hf]
  | cons c r ih =>
    have hc : c ≠ '.' := hw c (List.mem_cons_self c r)
    have hr : splitDot (r ++ '.' :: f) = [r, f] :=
      ih (fun x hx => hw x (List.mem_cons_of_mem c hx))
    simp [splitDot, if_neg hc, hr]

theorem foldl_digits_replicate_zero (k : Nat) :
    List.foldl (fun a c => a * 10 + (c.toNat - 48)) 0 (List.replicate k '0') = 0 := by
  induction k with
  | zero => rfl
  | succ k ih =>
    rw [List.replicate_succ, List.foldl_cons]
    simpa using ih

theorem decDigitsVal_replicate_append (k : Nat) (cs : List Char) :
    decDigitsVal (List.replicate k '0' ++ cs) = decDigitsVal cs := by
  unfold decDigitsVal
  rw [List.foldl_append, foldl_digits_replicate_zero]

theorem natDecChars_no_dot (n : Nat) : ∀ c ∈ natDecChars n, c ≠ '.' := by
  intro c hc heq
  have hall := natDecChars_all_digits n
  rw [List.all_eq_true] at hall
  have hd := hall c hc
  subst heq
  exact absurd hd (by decide)

theorem natDecChars_length_le {m d : Nat} (hd : 1 ≤ d) (hm : m < 10 ^ d) :
    (natDecChars m).length ≤ d := by
  unfold natDecChars
  split
  · simpa using hd
  · rw [List.length_reverse, List.length_map]
    exact digitsRevFuel_length_le (le_refl m) hm

theorem padZeros_length {k : Nat} {cs : List Char} (h : cs.length ≤ k) :
    (padZeros k cs).length = k := by
  simp only [padZeros, List.length_append, List.length_replicate]
  omega

theorem padZeros_all_digits {k : Nat} {cs : List Char}
    (h : cs.all isDigitChar = true) : (padZeros k cs).all isDigitChar = true := by
  rw [padZeros, List.all_append, h, Bool.and_true]
  rw [List.all_eq_true]
  intro c hc
  rw [List.eq_of_mem_replicate hc]
  decide

theorem padZeros_no_dot {k : Nat} {cs : List Char} (h : ∀ c ∈ cs, c ≠ '.') :
    ∀ c ∈ padZeros k cs, c ≠ '.' := by
  intro c hc
  rw [padZeros, List.mem_append] at hc
  rcases hc with hc | hc
  · rw [List.eq_of_mem_replicate hc]
    decide
  · exact h c hc

theorem parseU64Chars_natDecChars {n : Nat} (h : n < u64Size) :
    parseU64Chars (natDecChars n) = some n :=
  parseU64_natDecString h

theorem parseU64Chars_natDecChars_overflow {n : Nat} (h : ¬ n < u64Size) :
    parseU64Chars (natDecChars n) = none :=
  parseU64_natDecString_overflow h

theorem parseU64Chars_padZeros {k m : Nat} (hm : m < u64Size) :
    parseU64Chars (padZeros k (natDecChars m)) = some m := by
  unfold parseU64Chars
  have hall : (padZeros k (natDecChars m)).all isDigitChar = true :=
    padZeros_all_digits (natDecChars_all_digits m)
  rw [stripPlus_of_digits hall]
  have hne : padZeros k (natDecChars m) ≠ [] := by
    simp only [padZeros, ne_eq, List.append_eq_nil]
    intro hcon
    exact natDecChars_ne_nil m hcon.2
  have hdv : decDigitsVal (padZeros k (natDecChars m)) = m := by
    rw [padZeros, decDigitsVal_replicate_append, decDigitsVal_natDecChars]
  simp only [List.isEmpty_iff, hne, if_false, hall, if_true, hdv, hm]

theorem pow10w_eq_pow {d : Nat} (h : d ≤ 19) : pow10w d = 10 ^ d := by
  unfold pow10w u64Size
  apply Nat.mod_eq_of_lt
  calc 10 ^ d ≤ 10 ^ 19 := Nat.pow_le_pow_right (by norm_num) h
    _ < 2 ^ 64 := by norm_num

/-- Evaluation of the post-split core on a fractional part of exactly
`decimals ≥ 1` digits. -/
theorem tokenParseParts_eval (decimals : Nat) (v : String) (whole frac : List Char)
    (wholeVal fracVal : Nat) (hd : 1 ≤ decimals)
    (hflen : frac.length = decimals)
    (hw : parseU64Chars whole = some wholeVal)
    (hf : parseU64Chars frac = some fracVal)
    (hsum : wholeVal * pow10w decimals + fracVal < u64Size) :
    tokenParseParts decimals v whole frac =
      Except.ok (wholeVal * pow10w decimals + fracVal) := by
  have hnotlt : ¬ decimals < frac.length := by omega
  have hne : ¬ frac.isEmpty = true := by
    rw [List.isEmpty_iff]
    intro hcon
    rw [hcon] at hflen
    simp at hflen
    omega
  have h1 : pow10w 0 = 1 := rfl
  have hmul : checkedMul wholeVal (pow10w decimals) = some (wholeVal * pow10w decimals) := by
    unfold checkedMul
    rw [if_pos (by omega)]
  have hmul2 : checkedMul fracVal (pow10w 0) = some fracVal := by
    unfold checkedMul
    rw [h1, Nat.mul_one, if_pos (by omega)]
  unfold tokenParseParts
  simp only [if_neg hnotlt, hw, if_neg hne, hf, hflen, Nat.sub_self, hmul, hmul2,
    checkedAdd, if_pos hsum]
  rw [if_neg (lt_irrefl decimals)]

/-- Splitting into a single segment selects the fraction-free branch. -/
theorem tokenParse_one_part {d : Nat} {v : String} {whole : List Char}
    (h : splitDot v.data = [whole]) :
    tokenParse d v = tokenParseParts d v whole [] := by
  unfold tokenParse
  rw [h]

/-- Splitting into two segments selects the whole-and-fraction branch. -/
theorem tokenParse_two_parts {d : Nat} {v : String} {whole frac : List Char}
    (h : splitDot v.data = [whole, frac]) :
    tokenParse d v = tokenParseParts d v whole frac := by
  unfold tokenParse
  rw [h]

/-- C9 amended: for every token with `d` decimals and every `n` that is
both a `u64` value (`n < 2 ^ 64`) and below `10 ^ (20 - d)`, parsing the
decimal rendering recovers exactly `n`; parsing fails with
`TooManyDecimals` on any input whose fractional part has more than `d`
digits; and it fails on non-numeric input and on `u64` overflow of the
scaled result (final two conjuncts). -/
theorem token_parse_roundtrip (d n : Nat) (h64 : n < u64Size)
    (hrange : n < 10 ^ (20 - d)) :
    tokenParse d (toDecimalString n d) = Except.ok n ∧
    (∀ (v : String) (whole frac : List Char), splitDot v.data = [whole, frac] →
      d < frac.length →
      tokenParse d v = Except.error (MidenAmountParseError.tooManyDecimals frac.length d)) ∧
    tokenParse 6 "abc" = Except.error (MidenAmountParseError.invalidFormat "abc") ∧
    tokenParse 2 "184467440737095516.16" = Except.error MidenAmountParseError.overflow := by
  refine ⟨?_, ?_, by decide, by decide⟩
  · by_cases hd : d = 0
    · subst hd
      unfold toDecimalString
      rw [if_pos rfl]
      have hsplit : splitDot (natDecString n).data = [natDecChars n] := by
        rw [show (natDecString n).data = natDecChars n from rfl]
        exact splitDot_no_dot (natDecChars_no_dot n)
      rw [tokenParse_one_part hsplit]
      have hnotlt : ¬ (0 : Nat) < ([] : List Char).length := by simp
      have h1 : pow10w 0 = 1 := rfl
      have hmul : checkedMul n (pow10w 0) = some n := by
        unfold checkedMul
        rw [h1, Nat.mul_one, if_pos h64]
      have hmul2 : checkedMul 0 (pow10w 0) = some 0 := by
        unfold checkedMul
        rw [h1, Nat.mul_one, if_pos (by unfold u64Size; positivity)]
      unfold tokenParseParts
      simp only [if_neg hnotlt, parseU64Chars_natDecChars h64, List.isEmpty_nil,
        if_true, List.length_nil, Nat.sub_zero, hmul, hmul2, checkedAdd,
        Nat.add_zero, if_pos h64]
      rw [if_neg (lt_irrefl 0)]
    · have hd1 : 1 ≤ d := by omega
      unfold toDecimalString
      rw [if_neg hd]
      have hsplit : splitDot (String.mk (natDecChars (n / 10 ^ d) ++
          '.' :: padZeros d (natDecChars (n % 10 ^ d)))).data =
          [natDecChars (n / 10 ^ d), padZeros d (natDecChars (n % 10 ^ d))] := by
        rw [show (String.mk (natDecChars (n / 10 ^ d) ++
          '.' :: padZeros d (natDecChars (n % 10 ^ d)))).data =
          natDecChars (n / 10 ^ d) ++ '.' :: padZeros d (natDecChars (n % 10 ^ d)) from rfl]
        exact splitDot_sep _ _ (natDecChars_no_dot _)
          (padZeros_no_dot (natDecChars_no_dot _))
      rw [tokenParse_two_parts hsplit]
      have hflen : (padZeros d (natDecChars (n % 10 ^ d))).length = d :=
        padZeros_length (natDecChars_length_le hd1 (Nat.mod_lt n (by positivity)))
      have hwv : parseU64Chars (natDecChars (n / 10 ^ d)) = some (n / 10 ^ d) :=
        parseU64Chars_natDecChars (lt_of_le_of_lt (Nat.div_le_self n _) h64)
      have hfv : parseU64Chars (padZeros d (natDecChars (n % 10 ^ d))) =
          some (n % 10 ^ d) :=
        parseU64Chars_padZeros (lt_of_le_of_lt (Nat.mod_le n _) h64)
      have hsum_eq : (n / 10 ^ d) * pow10w d + n % 10 ^ d = n := by
        by_cases hn : n = 0
        · subst hn
          simp
        · have hd19 : d ≤ 19 := by
            by_contra hcon
            have h20 : 20 - d = 0 := by omega
            rw [h20, pow_zero] at hrange
            omega
          rw [pow10w_eq_pow hd19]
          have := Nat.div_add_mod n (10 ^ d)
          calc (n / 10 ^ d) * 10 ^ d + n % 10 ^ d
              = 10 ^ d * (n / 10 ^ d) + n % 10 ^ d := by rw [Nat.mul_comm]
            _ = n := this
      rw [tokenParseParts_eval d _ _ _ (n / 10 ^ d) (n % 10 ^ d) hd1 hflen hwv hfv
        (by rw [hsum_eq]; exact h64), hsum_eq]
  · intro v whole frac hsplit hlt
    rw [tokenParse_two_parts hsplit]
    unfold tokenParseParts
    rw [if_pos hlt]

/-- C9 counterexample: the claim quantifies over every integer
`n < 10 ^ (20 - d)`, but at `d = 0` the value `n = 2 ^ 64` lies in that
range while its decimal rendering fails to parse (the whole part overflows
`u64`), instead of yielding `amount = n`. -/
theorem token_parse_overflow_counterexample :
    (2 ^ 64 : Nat) < 10 ^ (20 - 0) ∧
    tokenParse 0 (toDecimalString (2 ^ 64) 0) =
      Except.error (MidenAmountParseError.invalidFormat (toDecimalString (2 ^ 64) 0)) := by
  constructor
  · norm_num
  · unfold toDecimalString
    rw [if_pos rfl]
    have hsplit : splitDot (natDecString (2 ^ 64)).data = [natDecChars (2 ^ 64)] := by
      rw [show (natDecString (2 ^ 64)).data = natDecChars (2 ^ 64) from rfl]
      exact splitDot_no_dot (natDecChars_no_dot _)
    rw [tokenParse_one_part hsplit]
    have hnotlt : ¬ (0 : Nat) < ([] : List Char).length := by simp
    have hnone : parseU64Chars (natDecChars (2 ^ 64)) = none :=
      parseU64Chars_natDecChars_overflow (by unfold u64Size; omega)
    unfold tokenParseParts
    simp only [if_neg hnotlt, hnone]

/-- C9 witness: the amended round-trip applied at 6 decimals and
`n = 1500000` (the rendering is `"1.500000"`). -/
theorem token_parse_roundtrip_checked :
    tokenParse 6 (toDecimalString 1500000 6) = Except.ok 1500000 ∧
    toDecimalString 1500000 6 = "1.500000" :=
  ⟨(token_parse_roundtrip 6 1500000 (by norm_num [u64Size]) (by norm_num)).1,
    by decide⟩
